import Mathlib

set_option maxRecDepth 10000

/-!
Verification of the messaging web front-end server (Express + whatsapp-web.js).

Shallow embedding of the parts of the server the specification talks about:
the incremental history pager behind GET /api/chat-messages/:chatId, the
session state machine driven by the external client's lifecycle events, the
voice-note outbound send pipeline behind POST /api/send-message with its
ordered fallback chain, and the per-chat pinned-message store behind
POST /api/pin-message.  JavaScript numbers that hold integer values are
modelled as Int, array indices as Nat, and the external client's calls
(chat.fetchMessages, client.sendMessage) as explicit parameters so that the
handlers become pure functions over a snapshot of the external state.
-/

/-- Canonical message record as the server reads it from the external client:
msg.id._serialized, msg.body, msg.timestamp (epoch seconds), msg.fromMe and
msg.from. -/
structure Msg where
  id : String
  body : String
  timestamp : Int
  fromMe : Bool
  sender : String
deriving DecidableEq, Repr

/-! ## History pager: GET /api/chat-messages/:chatId -/

/-- JavaScript Array.prototype.slice with integer arguments: negative
endpoints count from the end of the array, endpoints are clamped to
[0, length]. -/
def jsSlice (l : List Msg) (s e : Int) : List Msg :=
  let len : Int := l.length
  let s' : Int := if s < 0 then max (len + s) 0 else min s len
  let e' : Int := if e < 0 then max (len + e) 0 else min e len
  (l.drop s'.toNat).take (e' - s').toNat

/-- JavaScript Array.prototype.findIndex over message ids
(msg.id._serialized === beforeId), with none for the -1 not-found result. -/
def findIndexId (beforeId : String) : List Msg → Option Nat
  | [] => none
  | m :: t =>
      if m.id = beforeId then some 0
      else (findIndexId beforeId t).map (· + 1)

/-- Empirical order detection (server line 1273): the batch counts as
newest-first when it has more than one element and the first element's
timestamp exceeds the last element's. -/
def isNewestFirst (l : List Msg) : Bool :=
  match l.head?, l.getLast? with
  | some a, some b => decide (1 < l.length) && decide (b.timestamp < a.timestamp)
  | _, _ => false

/-- First slicing step of the cursor branch (server lines 1271-1319): pick
the pageSize entries strictly older than the cursor position, on the side of
the cursor determined by the detected batch orientation.  Returns the sliced
messages together with the endIndex value, which the retry condition
inspects afterwards. -/
def sliceStep (all : List Msg) (beforeIndex : Nat) (pageSize : Int) :
    List Msg × Int :=
  let len : Int := all.length
  if isNewestFirst all then
    let startIndex : Int := (beforeIndex : Int) + 1
    let endIndex : Int := min (startIndex + pageSize) len
    (if startIndex < endIndex ∧ startIndex < len then
        jsSlice all startIndex endIndex
      else [], endIndex)
  else
    let endIndex : Int := (beforeIndex : Int)
    let startIndex : Int := max 0 (endIndex - pageSize)
    (if startIndex < endIndex ∧ startIndex < len then
        jsSlice all startIndex endIndex
      else [], endIndex)

/-- Single enlarged retry (server lines 1329-1362): refetch with limit 1000,
relocate the cursor, and slice the pageSize entries after it; the previous
messages value is kept when the cursor is missing or sits at the very end. -/
def retryStep (more : List Msg) (beforeId : String) (pageSize : Int)
    (messages : List Msg) : List Msg :=
  match findIndexId beforeId more with
  | none => messages
  | some newBeforeIndex =>
      if (newBeforeIndex : Int) < (more.length : Int) - 1 then
        let newStartIndex : Int := (newBeforeIndex : Int) + 1
        let newEndIndex : Int := min (newStartIndex + pageSize) (more.length : Int)
        jsSlice more newStartIndex newEndIndex
      else messages

/-- Cursor branch of the handler (server lines 1227-1369): locate beforeId
in the 500-message overfetch, slice, and retry once with 1000 when the slice
ran out at the end of the batch.  An absent cursor id yields the empty
list. -/
def cursorFetch (batch500 batch1000 : List Msg) (beforeId : String)
    (pageSize : Int) : List Msg :=
  match findIndexId beforeId batch500 with
  | none => []
  | some beforeIndex =>
      let res := sliceStep batch500 beforeIndex pageSize
      if (res.1.length : Int) < pageSize ∧ res.2 = (batch500.length : Int) then
        retryStep batch1000 beforeId pageSize res.1
      else res.1

/-- Page size computation (server line 1222):
Math.min(parseInt(limit or "50", 10), 100).  An absent or empty limit
parameter parses as 50; there is no lower clamp. -/
def computePageSize (limit : Option Int) : Int :=
  min (limit.getD 50) 100

/-- Whole pager (server lines 1222-1407): the external chat is a fetch
function from the requested limit to the returned batch; the cursor branch
fetches 500 and possibly 1000 messages, the cursorless branch fetches
pageSize messages, and the result is reversed before being returned. -/
def fetchPage (fetch : Nat → List Msg) (beforeId : Option String)
    (pageSize : Int) : List Msg :=
  (match beforeId with
   | some bid => cursorFetch (fetch 500) (fetch 1000) bid pageSize
   | none => fetch pageSize.toNat).reverse

/-- HTTP-level result of a read handler: a JSON success payload or an error
status code. -/
inductive ApiResult where
  | ok (messages : List Msg)
  | err (status : Nat)
deriving DecidableEq, Repr

/-- GET /api/chat-messages/:chatId handler (server lines 1197-1412): the
ready/authenticated guard answers 400, a missing chat answers 404, and
otherwise the pager result is returned as a success payload. -/
def chatMessagesHandler (isReady isAuthenticated chatExists : Bool)
    (fetch : Nat → List Msg) (beforeId : Option String) (limit : Option Int) :
    ApiResult :=
  if isReady = false ∨ isAuthenticated = false then .err 400
  else if chatExists = false then .err 404
  else .ok (fetchPage fetch beforeId (computePageSize limit))

/-! ## Session state machine -/

/-- Process-wide session flags (server lines 36-38). -/
structure SessionState where
  isAuthenticated : Bool
  isReady : Bool
  clientState : String
deriving DecidableEq, Repr

/-- client.on("change_state") handler (server lines 113-134): store the new
state, set isReady on READY, and force both flags false on CONFLICT or
UNLAUNCHED. -/
def changeState (s : SessionState) (state : String) : SessionState :=
  let s1 : SessionState := { s with clientState := state }
  if state = "READY" then { s1 with isReady := true }
  else if state = "CONFLICT" ∨ state = "UNLAUNCHED" then
    { s1 with isReady := false, isAuthenticated := false }
  else s1

/-! ## Outbound voice-note send pipeline: POST /api/send-message -/

/-- Delivery tiers of the fallback chain, in attempt order (server lines
679-916): voice-flagged send, plain audio media, octet-stream document,
fixed audio/mpeg media, inert text payload, and the final human-readable
failure notification. -/
inductive Tier where
  | voice
  | audio
  | document
  | fallbackMime
  | base64Text
  | failureNotice
deriving DecidableEq, Repr

/-- Outcome of POST /api/send-message on the voice path: a res.json success
payload carrying the method field, or an error status. -/
inductive SendOutcome where
  | ok (method : String)
  | err (status : Nat)
deriving DecidableEq, Repr

/-- MIME normalization (server lines 413-442): ordered substring match over
the provided type, defaulting to audio/webm both for an absent or empty
input and for an unrecognized one. -/
def listIncludes (needle : List Char) : List Char → Bool
  | [] => needle.isEmpty
  | c :: t => needle.isPrefixOf (c :: t) || listIncludes needle t

/-- JavaScript String.prototype.includes. -/
def strIncludes (hay needle : String) : Bool :=
  listIncludes needle.toList hay.toList

/-- The mimeType or "audio/webm" expression (server line 414): JavaScript
treats an undefined or empty mimeType as falsy. -/
def mimeOrDefault (mimeType : Option String) : String :=
  match mimeType with
  | none => "audio/webm"
  | some s => if s = "" then "audio/webm" else s

/-- cleanMimeType computation (server lines 414-442). -/
def cleanMime (mimeType : Option String) : String :=
  let c := mimeOrDefault mimeType
  if strIncludes c "webm" then "audio/webm"
  else if strIncludes c "mp4" || strIncludes c "m4a" then "audio/mp4"
  else if strIncludes c "wav" then "audio/wav"
  else if strIncludes c "ogg" then "audio/ogg"
  else if strIncludes c "mp3" then "audio/mpeg"
  else "audio/webm"

/-- File extension switch on the normalized MIME type (server lines
445-464). -/
def fileExtension (cleanMimeType : String) : String :=
  if cleanMimeType = "audio/webm" then "webm"
  else if cleanMimeType = "audio/mp4" then "m4a"
  else if cleanMimeType = "audio/wav" then "wav"
  else if cleanMimeType = "audio/ogg" then "ogg"
  else if cleanMimeType = "audio/mpeg" then "mp3"
  else "mp3"

/-- Character class of the base64 validation regex: A-Za-z0-9 plus / and
the plus sign. -/
def isBase64Char (c : Char) : Bool :=
  (('A' ≤ c ∧ c ≤ 'Z') ∨ ('a' ≤ c ∧ c ≤ 'z') ∨ ('0' ≤ c ∧ c ≤ '9')) ∨
    c = '+' ∨ c = '/'

/-- Acceptance of the validation regex (server line 494): a run of base64
characters followed by at most two padding characters.  The Nat argument
counts the padding characters seen so far. -/
def base64Run : List Char → Nat → Bool
  | [], _ => true
  | c :: t, 0 =>
      if isBase64Char c then base64Run t 0
      else if c = '=' then base64Run t 1 else false
  | c :: t, 1 => if c = '=' then base64Run t 2 else false
  | _ :: _, _ + 2 => false

/-- The test of the /^[A-Za-z0-9+/]*={0,2}$/ regex. -/
def base64Test (s : String) : Bool :=
  base64Run s.toList 0

/-- Characters of the second comma-separated segment of a string: the
segment split(",")[1] denotes, read until the following comma. -/
def takeUntilComma : List Char → List Char
  | [] => []
  | c :: t => if c = ',' then [] else c :: takeUntilComma t

/-- JavaScript split(",")[1]: the segment between the first and the second
comma, undefined (none) when the string holds no comma. -/
def afterFirstComma : List Char → Option (List Char)
  | [] => none
  | c :: t => if c = ',' then some (takeUntilComma t) else afterFirstComma t

/-- Data-URL prefix stripping (server lines 470-486): audioData.split(",")[1]
when the payload starts with "data:"; none models the undefined that
results when no comma is present. -/
def cleanAudioData (audioData : String) : Option String :=
  if "data:".toList.isPrefixOf audioData.toList then
    (afterFirstComma audioData.toList).map fun l => String.mk l
  else some audioData

/-- Byte length of the buffer Node's Buffer.from(s, "base64") produces:
three bytes for every four base64 digits, ignoring padding. -/
def base64DecodedLen (s : String) : Nat :=
  ((s.toList.filter isBase64Char).length * 3) / 4

/-- Payload validation (server lines 469-533): strip the data-URL prefix
and throw on an empty, non-base64, under-100-character or over-50MB
payload, or on one whose decoded buffer is empty.  A thrown error is the
none result; the validated clean payload is the some result. -/
def validateVoicePayload (audioData : String) : Option String :=
  match cleanAudioData audioData with
  | none => none
  | some c =>
      if c.length = 0 then none
      else if base64Test c = false then none
      else if c.length < 100 then none
      else if 52428800 < c.length then none
      else if base64DecodedLen c = 0 then none
      else some c

/-- Fallback chain (server lines 679-924) flattened from its nested
try/catch form: each tier is attempted in order and the first success sets
the sent flag, after which the single success response of lines 918-923
answers with the fixed method string "voice message"; only the
failure-notice tier returns its own distinct response from inside the chain
(lines 890-904), and exhaustion answers 500 (line 967).  The env argument
models which client.sendMessage attempts succeed; the returned list records
the attempts made, in order. -/
def voiceChainRun (env : Tier → Bool) : SendOutcome × List Tier :=
  if env .voice then (.ok "voice message", [.voice])
  else if env .audio then (.ok "voice message", [.voice, .audio])
  else if env .document then (.ok "voice message", [.voice, .audio, .document])
  else if env .fallbackMime then
    (.ok "voice message", [.voice, .audio, .document, .fallbackMime])
  else if env .base64Text then
    (.ok "voice message", [.voice, .audio, .document, .fallbackMime, .base64Text])
  else if env .failureNotice then
    (.ok "fallback notification",
      [.voice, .audio, .document, .fallbackMime, .base64Text, .failureNotice])
  else
    (.err 500,
      [.voice, .audio, .document, .fallbackMime, .base64Text, .failureNotice])

/-- Voice-message path of POST /api/send-message (server lines 244-1019 for
a request with isVoiceMessage and audioData set): the precondition guards of
lines 249-289 and 307-376, the 10MB raw-size guard of line 388, the payload
validation whose thrown errors are caught at line 1016 as a 500 response,
and then the fallback chain.  MessageMedia construction is modelled as
succeeding on a validated payload. -/
def voiceMessageSend (clientExists isReady isAuthenticated : Bool)
    (clientState : String) (number : String) (audioData : String)
    (env : Tier → Bool) : SendOutcome × List Tier :=
  if clientExists = false then (.err 400, [])
  else if isReady = false ∨ isAuthenticated = false then (.err 400, [])
  else if number = "" then (.err 400, [])
  else if clientState ≠ "" ∧ clientState ≠ "READY" then (.err 400, [])
  else if 10485760 < audioData.length then (.err 413, [])
  else
    match validateVoicePayload audioData with
    | none => (.err 500, [])
    | some _ => voiceChainRun env

/-! ## Pinned messages: POST /api/pin-message -/

/-- Pinned-message summary stored per chat (server lines 1550-1556). -/
structure PinnedMsg where
  id : String
  text : String
  timestamp : Int
  sender : String
  fromMe : Bool
deriving DecidableEq, Repr

/-- Summary construction from the message found in the fetched batch
(server lines 1550-1556). -/
def summarize (m : Msg) : PinnedMsg :=
  { id := m.id, text := m.body, timestamp := m.timestamp,
    sender := if m.fromMe then "me" else m.sender, fromMe := m.fromMe }

/-- Pin action on one chat's pinned list (server lines 1539-1560): a no-op
when an entry with the id is already present, otherwise the summary of the
matching message from the freshly fetched batch is appended; a message id
absent from the batch is also a no-op. -/
def pinOp (chatPinned : List PinnedMsg) (fetched : List Msg)
    (messageId : String) : List PinnedMsg :=
  if (chatPinned.find? (fun p => p.id = messageId)).isSome then chatPinned
  else
    match fetched.find? (fun m => m.id = messageId) with
    | some m => chatPinned ++ [summarize m]
    | none => chatPinned

/-- Unpin action (server lines 1561-1566): filter out every entry with the
id. -/
def unpinOp (chatPinned : List PinnedMsg) (messageId : String) :
    List PinnedMsg :=
  chatPinned.filter (fun p => p.id ≠ messageId)

/-! ## Auxiliary predicates used by the statements -/

/-- The batch is strictly newest-first: timestamps strictly decrease along
the list. -/
def ChronoDesc (l : List Msg) : Prop :=
  List.Pairwise (fun a b => b.timestamp < a.timestamp) l

/-- The batch is strictly oldest-first: timestamps strictly increase along
the list. -/
def ChronoAsc (l : List Msg) : Prop :=
  List.Pairwise (fun a b => a.timestamp < b.timestamp) l

/-- No two entries of a chat's pinned list carry the same message id. -/
def NodupIds (l : List PinnedMsg) : Prop :=
  (l.map PinnedMsg.id).Nodup

/-- A well-formed 104-character base64 voice payload used to instantiate
the send-pipeline theorems. -/
def samplePayload : String :=
  "AAAAAAAAAAAAAAAAAAAAAAAAAAAAAAAAAAAAAAAAAAAAAAAAAAAAAAAAAAAAAAAAAAAAAAAAAAAAAAAAAAAAAAAAAAAAAAAAAAAAAAAA"

/-! ## Helper lemmas -/

theorem findIndexId_eq_none (bid : String) (l : List Msg)
    (h : ∀ m ∈ l, m.id ≠ bid) : findIndexId bid l = none := by
  induction l with
  | nil => rfl
  | cons m t ih =>
      have hm : m.id ≠ bid := h m (List.mem_cons_self m t)
      simp [findIndexId, hm, ih fun x hx => h x (List.mem_cons_of_mem m hx)]

/-- Claim C8: processing an external change_state signal equal to CONFLICT
or UNLAUNCHED leaves both the isAuthenticated flag and the isReady flag
false, regardless of the prior session state. -/
theorem changeState_conflict_unlaunched_clears_flags (s : SessionState) :
    (changeState s "CONFLICT").isAuthenticated = false ∧
    (changeState s "CONFLICT").isReady = false ∧
    (changeState s "UNLAUNCHED").isAuthenticated = false ∧
    (changeState s "UNLAUNCHED").isReady = false := by
  simp [changeState]

/-- Witness for C8: the flags are cleared even from a fully ready
session. -/
theorem changeState_conflict_unlaunched_clears_flags_witness :
    (changeState ⟨true, true, "READY"⟩ "CONFLICT").isAuthenticated = false ∧
    (changeState ⟨true, true, "READY"⟩ "CONFLICT").isReady = false :=
  ⟨(changeState_conflict_unlaunched_clears_flags ⟨true, true, "READY"⟩).1,
   (changeState_conflict_unlaunched_clears_flags ⟨true, true, "READY"⟩).2.1⟩

/-- Counterexample to claim C4: a limit query value of 0 yields a page size
of 0, outside the interval [1,100] — the computation has no lower clamp. -/
theorem computePageSize_no_lower_clamp_counterexample :
    computePageSize (some 0) = 0 ∧ ¬(1 ≤ computePageSize (some 0)) := by
  decide

/-- Claim C4 (amended): the page size is the parsed limit clamped from
above to 100, with default 50 when the parameter is absent; values below 1
are passed through unclamped. -/
theorem computePageSize_upper_clamp_only :
    (∀ limit : Option Int, computePageSize limit ≤ 100) ∧
    computePageSize none = 50 ∧
    ∀ n : Int, n ≤ 100 → computePageSize (some n) = n := by
  refine ⟨fun limit => min_le_right _ _, by decide, fun n hn => ?_⟩
  simpa [computePageSize] using min_eq_left hn

/-- Witness for C4 (amended): a negative limit passes through while the
default stays 50. -/
theorem computePageSize_upper_clamp_only_witness :
    computePageSize (some (-7)) = -7 ∧ computePageSize none = 50 :=
  ⟨computePageSize_upper_clamp_only.2.2 (-7) (by decide),
   computePageSize_upper_clamp_only.2.1⟩

/-- Counterexample to claim C9: the string "audio/mpeg" contains the
whitelist format name "mpeg", yet the normalization yields audio/webm (the
code matches the substring "mp3", never "mpeg"). -/
theorem cleanMime_mpeg_counterexample :
    strIncludes "audio/mpeg" "mpeg" = true ∧
    cleanMime (some "audio/mpeg") = "audio/webm" := by
  exact ⟨rfl, rfl⟩

/-- Claim C9 (amended): the normalization always lands in the five-type
whitelist, a string containing "webm" maps to audio/webm, a string
containing none of the matched keys (webm, mp4, m4a, wav, ogg, mp3 — note
mp3, not mpeg) defaults to audio/webm, and the derived file extension
corresponds to the normalized type. -/
theorem cleanMime_whitelist_and_extension (m : Option String) :
    (cleanMime m = "audio/webm" ∨ cleanMime m = "audio/mp4" ∨
      cleanMime m = "audio/wav" ∨ cleanMime m = "audio/ogg" ∨
      cleanMime m = "audio/mpeg") ∧
    (strIncludes (mimeOrDefault m) "webm" = true → cleanMime m = "audio/webm") ∧
    (strIncludes (mimeOrDefault m) "webm" = false →
      strIncludes (mimeOrDefault m) "mp4" = false →
      strIncludes (mimeOrDefault m) "m4a" = false →
      strIncludes (mimeOrDefault m) "wav" = false →
      strIncludes (mimeOrDefault m) "ogg" = false →
      strIncludes (mimeOrDefault m) "mp3" = false →
      cleanMime m = "audio/webm") ∧
    fileExtension "audio/webm" = "webm" ∧ fileExtension "audio/mp4" = "m4a" ∧
    fileExtension "audio/wav" = "wav" ∧ fileExtension "audio/ogg" = "ogg" ∧
    fileExtension "audio/mpeg" = "mp3" := by
  refine ⟨?_, ?_, ?_, rfl, rfl, rfl, rfl, rfl⟩
  · simp only [cleanMime]
    split_ifs <;> simp
  · intro h
    simp [cleanMime, h]
  · intro h1 h2 h3 h4 h5 h6
    simp [cleanMime, h1, h2, h3, h4, h5, h6]

/-- Witness for C9 (amended): a codec-qualified WebM type normalizes to
audio/webm with extension webm. -/
theorem cleanMime_whitelist_and_extension_witness :
    cleanMime (some "audio/webm;codecs=opus") = "audio/webm" ∧
    fileExtension "audio/webm" = "webm" :=
  ⟨(cleanMime_whitelist_and_extension (some "audio/webm;codecs=opus")).2.1 rfl,
   (cleanMime_whitelist_and_extension (some "audio/webm;codecs=opus")).2.2.2.1⟩

/-- Claim C5: a cursor id that does not occur in the overfetched batch
yields an empty message list with a success response; the handler returns
no error status for cursor-not-found. -/
theorem chatMessagesHandler_cursor_not_found (fetch : Nat → List Msg)
    (bid : String) (limit : Option Int)
    (hnot : ∀ m ∈ fetch 500, m.id ≠ bid) :
    chatMessagesHandler true true true fetch (some bid) limit = .ok [] := by
  have h5 : findIndexId bid (fetch 500) = none := findIndexId_eq_none bid _ hnot
  simp [chatMessagesHandler, fetchPage, cursorFetch, h5]

/-- Witness for C5: an unknown cursor over an empty batch answers ok with
no messages. -/
theorem chatMessagesHandler_cursor_not_found_witness :
    chatMessagesHandler true true true (fun _ => []) (some "missing") none
      = .ok [] :=
  chatMessagesHandler_cursor_not_found (fun _ => []) "missing" none
    (by intro m hm; simp at hm)

/-- Counterexample to claim C2: when the voice and audio tiers fail and the
document tier succeeds, the response carries method "voice message" — the
same fixed indicator reported when tier (a) itself succeeds — not an
indicator of the document tier. -/
theorem voiceSend_method_counterexample :
    voiceMessageSend true true true "READY" "15551234567" samplePayload
        (fun t => t == Tier.document)
      = (.ok "voice message", [.voice, .audio, .document]) ∧
    voiceMessageSend true true true "READY" "15551234567" samplePayload
        (fun _ => true)
      = (.ok "voice message", [.voice]) := by
  exact ⟨rfl, rfl⟩

/-- Claim C2 (amended): when tiers (a) and (b) fail and tier (c) succeeds,
the response reports success, the chain stops at the document tier, and the
method indicator is the fixed string "voice message" — identical to the one
reported when tier (a) succeeds; only the exhaustion notification path
reports a distinct method. -/
theorem voiceSend_document_success (clientExists isReady isAuthenticated : Bool)
    (clientState number audioData : String) (env : Tier → Bool)
    (h1 : clientExists = true) (h2 : isReady = true)
    (h3 : isAuthenticated = true) (h4 : clientState = "READY")
    (h5 : number ≠ "") (h6 : audioData.length ≤ 10485760)
    (h7 : (validateVoicePayload audioData).isSome)
    (ha : env .voice = false) (hb : env .audio = false)
    (hc : env .document = true) :
    voiceMessageSend clientExists isReady isAuthenticated clientState number
        audioData env
      = (.ok "voice message", [.voice, .audio, .document]) := by
  subst h1 h2 h3 h4
  obtain ⟨c, hcv⟩ := Option.isSome_iff_exists.mp h7
  simp [voiceMessageSend, voiceChainRun, h5, Int.not_lt.mpr,
    Nat.not_lt.mpr h6, hcv, ha, hb, hc]

/-- Witness for C2 (amended): the concrete document-tier-only environment
on a valid payload. -/
theorem voiceSend_document_success_witness :
    voiceMessageSend true true true "READY" "15551234567" samplePayload
        (fun t => t == Tier.document)
      = (.ok "voice message", [.voice, .audio, .document]) :=
  voiceSend_document_success true true true "READY" "15551234567"
    samplePayload (fun t => t == Tier.document) rfl rfl rfl rfl (by decide)
    (by decide) (by decide) rfl rfl rfl

/-- Counterexample to claim C3: a 4-character cleaned payload is rejected
with HTTP 500 (the thrown validation error lands in the generic catch), not
with HTTP 400, although no delivery attempt is made. -/
theorem voiceSend_short_payload_counterexample :
    voiceMessageSend true true true "READY" "15551234567" "QUJD"
        (fun _ => true)
      = (.err 500, []) ∧
    (voiceMessageSend true true true "READY" "15551234567" "QUJD"
        (fun _ => true)).1 ≠ .err 400 := by
  exact ⟨rfl, by decide⟩

/-- Claim C3 (amended): a voice-note send whose cleaned base64 payload is
shorter than 100 characters performs zero delivery attempts in every
session state, and — when the session preconditions and the 10MB raw-size
guard pass — is rejected with HTTP status 500 by the generic catch around
the send pipeline. -/
theorem voiceSend_short_payload (clientExists isReady isAuthenticated : Bool)
    (clientState number audioData : String) (env : Tier → Bool)
    (hshort : ((cleanAudioData audioData).getD "").length < 100) :
    (voiceMessageSend clientExists isReady isAuthenticated clientState number
        audioData env).2 = [] ∧
    (clientExists = true → isReady = true → isAuthenticated = true →
      clientState = "READY" → number ≠ "" → audioData.length ≤ 10485760 →
      voiceMessageSend clientExists isReady isAuthenticated clientState number
          audioData env
        = (.err 500, [])) := by
  have hval : validateVoicePayload audioData = none := by
    unfold validateVoicePayload
    cases hca : cleanAudioData audioData with
    | none => rfl
    | some c =>
        rw [hca] at hshort
        simp only [Option.getD_some] at hshort
        by_cases hz : c.length = 0
        · simp [hz]
        · by_cases hb : base64Test c = false
          · simp [hz, hb]
          · simp [hz, hb, hshort]
  constructor
  · unfold voiceMessageSend
    split_ifs <;> simp [hval]
  · intro h1 h2 h3 h4 h5 h6
    subst h1 h2 h3 h4
    simp [voiceMessageSend, h5, Nat.not_lt.mpr h6, hval]

/-- Witness for C3 (amended): the concrete short payload from the
counterexample, in a ready session. -/
theorem voiceSend_short_payload_witness :
    voiceMessageSend true true true "READY" "15551234567" "QUJD"
        (fun _ => true)
      = (.err 500, []) :=
  (voiceSend_short_payload true true true "READY" "15551234567" "QUJD"
      (fun _ => true) (by decide)).2 rfl rfl rfl rfl (by decide) (by decide)

/-- Counterexample to claim C7: pinning an id that is already pinned is a
no-op, but the subsequent unpin filters the pre-existing entry out, so the
round trip does not restore the starting pinned set. -/
theorem pin_unpin_roundtrip_counterexample :
    unpinOp (pinOp [⟨"m1", "hello", 5, "me", true⟩] [] "m1") "m1"
      ≠ [⟨"m1", "hello", 5, "me", true⟩] := by
  decide

/-- Claim C7 (amended): for every starting pinned set that holds no entry
with the given message id, performing the pin operation followed by the
unpin operation for that id returns the chat's pinned set to exactly its
state before the pin. -/
theorem pin_unpin_roundtrip (l : List PinnedMsg) (fetched : List Msg)
    (mid : String) (hnot : ∀ p ∈ l, p.id ≠ mid) :
    unpinOp (pinOp l fetched mid) mid = l := by
  have hfind : l.find? (fun p => p.id = mid) = none := by
    rw [List.find?_eq_none]
    intro p hp
    simpa using hnot p hp
  have hfilter : l.filter (fun p => p.id ≠ mid) = l := by
    rw [List.filter_eq_self]
    intro p hp
    simpa using hnot p hp
  unfold pinOp
  rw [hfind]
  simp only [Option.isSome_none, Bool.false_eq_true, if_false]
  cases hm : fetched.find? (fun m => m.id = mid) with
  | none => simpa [unpinOp] using hfilter
  | some m =>
      have hid : m.id = mid := by simpa using List.find?_some hm
      simp only [unpinOp, List.filter_append, summarize, hid]
      rw [hfilter]
      simp

/-- Witness for C7 (amended): pin then unpin over the empty starting set
returns the empty set. -/
theorem pin_unpin_roundtrip_witness :
    unpinOp (pinOp [] [⟨"b", "x", 2, true, "t"⟩] "b") "b" = [] :=
  pin_unpin_roundtrip [] [⟨"b", "x", 2, true, "t"⟩] "b"
    (by intro p hp; simp at hp)

/-- Claim C10: a chat's pinned-message list never holds two entries with
the same message id — the empty list satisfies the invariant and every pin
operation (a no-op on an already-pinned id) and every unpin operation
preserves it. -/
theorem pinnedList_nodup_invariant :
    NodupIds ([] : List PinnedMsg) ∧
    (∀ (l : List PinnedMsg) (fetched : List Msg) (mid : String),
      NodupIds l → NodupIds (pinOp l fetched mid)) ∧
    (∀ (l : List PinnedMsg) (mid : String),
      NodupIds l → NodupIds (unpinOp l mid)) := by
  refine ⟨by simp [NodupIds], ?_, ?_⟩
  · intro l fetched mid hl
    unfold pinOp
    cases hfound : (l.find? (fun p => p.id = mid)).isSome with
    | true => simpa [hfound] using hl
    | false =>
        simp only [hfound, Bool.false_eq_true, if_false]
        cases hm : fetched.find? (fun m => m.id = mid) with
        | none => exact hl
        | some m =>
            have hid : m.id = mid := by simpa using List.find?_some hm
            have hnone : l.find? (fun p => p.id = mid) = none := by
              rcases h : l.find? (fun p => p.id = mid) with _ | v
              · exact h
              · rw [h] at hfound; simp at hfound
            have hnotin : mid ∉ l.map PinnedMsg.id := by
              rw [List.find?_eq_none] at hnone
              intro hmem
              obtain ⟨p, hp, hpid⟩ := List.mem_map.mp hmem
              have hpm : ¬p.id = mid := by simpa using hnone p hp
              exact hpm hpid
            simp only [NodupIds, List.map_append, List.map_cons,
              List.map_nil, summarize, hid]
            exact List.Nodup.append hl (List.nodup_singleton mid)
              (by simpa using hnotin)
  · intro l mid hl
    exact List.Nodup.sublist
      (List.Sublist.map PinnedMsg.id (List.filter_sublist l)) hl

/-- Witness for C10: pinning a fresh message id onto the empty list keeps
ids unique. -/
theorem pinnedList_nodup_invariant_witness :
    NodupIds (pinOp [] [⟨"a", "hi", 1, false, "s"⟩] "a") :=
  pinnedList_nodup_invariant.2.1 [] [⟨"a", "hi", 1, false, "s"⟩] "a"
    (by simp [NodupIds])

theorem pairwise_getElem?_rel {R : Msg → Msg → Prop} (l : List Msg)
    (h : List.Pairwise R l) (i j : Nat) (hij : i < j) (a b : Msg)
    (ha : l[i]? = some a) (hb : l[j]? = some b) : R a b := by
  have hj : j < l.length := (List.getElem?_eq_some_iff.mp hb).1
  have hi : i < l.length := by omega
  rw [List.getElem?_eq_getElem hi] at ha
  rw [List.getElem?_eq_getElem hj] at hb
  injection ha with ha
  injection hb with hb
  subst ha hb
  exact List.pairwise_iff_getElem.mp h i j hi hj hij

theorem findIndexId_some_getElem (bid : String) (l : List Msg) :
    ∀ i, findIndexId bid l = some i → ∃ m : Msg, l[i]? = some m ∧ m.id = bid := by
  induction l with
  | nil => intro i h; simp [findIndexId] at h
  | cons a t ih =>
      intro i h
      unfold findIndexId at h
      by_cases ha : a.id = bid
      · rw [if_pos ha] at h
        cases h
        exact ⟨a, by simp, ha⟩
      · rw [if_neg ha] at h
        cases hft : findIndexId bid t with
        | none => rw [hft] at h; simp at h
        | some j =>
            rw [hft] at h
            simp only [Option.map_some'] at h
            cases h
            obtain ⟨m, hm, hmid⟩ := ih j hft
            exact ⟨m, by simpa using hm, hmid⟩

theorem findIndexId_append_left (bid : String) (l t : List Msg) (i : Nat)
    (h : findIndexId bid l = some i) :
    findIndexId bid (l ++ t) = some i := by
  induction l generalizing i with
  | nil => simp [findIndexId] at h
  | cons a r ih =>
      simp only [List.cons_append]
      unfold findIndexId at h ⊢
      by_cases ha : a.id = bid
      · rw [if_pos ha] at h ⊢; exact h
      · rw [if_neg ha] at h ⊢
        cases hfr : findIndexId bid r with
        | none => rw [hfr] at h; simp at h
        | some j =>
            rw [hfr] at h
            rw [ih j hfr]
            exact h

theorem isPrefix_getElem? (l₁ l₂ : List Msg) (h : l₁ <+: l₂) (i : Nat)
    (a : Msg) (ha : l₁[i]? = some a) : l₂[i]? = some a := by
  obtain ⟨t, rfl⟩ := h
  have hi : i < l₁.length := (List.getElem?_eq_some_iff.mp ha).1
  rw [List.getElem?_append, if_pos hi]
  exact ha

theorem jsSlice_eq (l : List Msg) (s e : Int) (hs : 0 ≤ s)
    (hsl : s ≤ (l.length : Int)) (he : 0 ≤ e) (hel : e ≤ (l.length : Int)) :
    jsSlice l s e = (l.drop s.toNat).take (e.toNat - s.toNat) := by
  simp only [jsSlice]
  rw [if_neg (by omega), if_neg (by omega), min_eq_left hsl, min_eq_left hel]
  congr 1
  omega

theorem slice_sublist (l : List Msg) (s k : Nat) :
    ((l.drop s).take k).Sublist l :=
  List.Sublist.trans (List.take_sublist k (l.drop s)) (List.drop_sublist s l)

theorem isNewestFirst_eq (l : List Msg) (a b : Msg)
    (h0 : l[0]? = some a) (h1 : l[l.length - 1]? = some b) :
    isNewestFirst l =
      (decide (1 < l.length) && decide (b.timestamp < a.timestamp)) := by
  unfold isNewestFirst
  rw [List.head?_eq_getElem?, List.getLast?_eq_getElem?, h0, h1]

theorem chronoDesc_two_newest (l : List Msg) (h : ChronoDesc l)
    (h2 : 2 ≤ l.length) : isNewestFirst l = true := by
  have h0 := List.getElem?_eq_getElem (l := l) (n := 0) (by omega)
  have h1 := List.getElem?_eq_getElem (l := l) (n := l.length - 1) (by omega)
  rw [isNewestFirst_eq l _ _ h0 h1]
  have hrel := pairwise_getElem?_rel l h 0 (l.length - 1) (by omega) _ _ h0 h1
  simp only [Bool.and_eq_true, decide_eq_true_eq]
  exact ⟨by omega, hrel⟩

theorem chronoAsc_not_newest (l : List Msg) (h : ChronoAsc l) :
    isNewestFirst l = false := by
  by_cases h2 : 2 ≤ l.length
  · have h0 := List.getElem?_eq_getElem (l := l) (n := 0) (by omega)
    have h1 := List.getElem?_eq_getElem (l := l) (n := l.length - 1) (by omega)
    rw [isNewestFirst_eq l _ _ h0 h1]
    have hrel := pairwise_getElem?_rel l h 0 (l.length - 1) (by omega) _ _ h0 h1
    have hdec : decide ((l.get ⟨l.length - 1, by omega⟩).timestamp
        < (l.get ⟨0, by omega⟩).timestamp) = false := by
      simp only [List.get_eq_getElem]
      exact decide_eq_false (by omega)
    simp only [List.get_eq_getElem] at hdec
    rw [hdec, Bool.and_false]
  · cases l with
    | nil => rfl
    | cons a t =>
        cases t with
        | nil => rfl
        | cons b r =>
            exfalso
            simp only [List.length_cons] at h2
            omega

theorem chronoDesc_not_newest_len (l : List Msg) (h : ChronoDesc l)
    (hnf : isNewestFirst l = false) : l.length ≤ 1 := by
  by_contra hlen
  rw [chronoDesc_two_newest l h (by omega)] at hnf
  simp at hnf

theorem mem_slice_after_lt (l : List Msg) (i k : Nat) (c : Msg)
    (hd : ChronoDesc l) (hc : l[i]? = some c) :
    ∀ m ∈ (l.drop (i + 1)).take k, m.timestamp < c.timestamp := by
  intro m hm
  have hm2 : m ∈ l.drop (i + 1) := List.take_subset k _ hm
  obtain ⟨j, hj⟩ := List.mem_iff_getElem?.mp hm2
  rw [List.getElem?_drop] at hj
  exact pairwise_getElem?_rel l hd i (i + 1 + j) (by omega) c m hc hj

theorem mem_slice_before_lt (l : List Msg) (i s k : Nat) (c : Msg)
    (ha : ChronoAsc l) (hc : l[i]? = some c) (hk : s + k ≤ i) :
    ∀ m ∈ (l.drop s).take k, m.timestamp < c.timestamp := by
  intro m hm
  obtain ⟨j, hj⟩ := List.mem_iff_getElem?.mp hm
  have hjk : j < k := by
    by_contra hge
    rw [List.getElem?_take, if_neg (by omega)] at hj
    simp at hj
  rw [List.getElem?_take, if_pos hjk, List.getElem?_drop] at hj
  exact pairwise_getElem?_rel l ha (s + j) i (by omega) m c hj hc

theorem sliceStep_newest_eq (all : List Msg) (bi : Nat) (p : Int)
    (hNF : isNewestFirst all = true) :
    sliceStep all bi p =
      (if (bi : Int) + 1 < min ((bi : Int) + 1 + p) (all.length : Int) ∧
          (bi : Int) + 1 < (all.length : Int) then
         jsSlice all ((bi : Int) + 1) (min ((bi : Int) + 1 + p) (all.length : Int))
       else [],
       min ((bi : Int) + 1 + p) (all.length : Int)) := by
  simp only [sliceStep, hNF, if_true]

theorem sliceStep_oldest_eq (all : List Msg) (bi : Nat) (p : Int)
    (hNF : isNewestFirst all = false) :
    sliceStep all bi p =
      (if max 0 ((bi : Int) - p) < (bi : Int) ∧
          max 0 ((bi : Int) - p) < (all.length : Int) then
         jsSlice all (max 0 ((bi : Int) - p)) (bi : Int)
       else [],
       (bi : Int)) := by
  simp only [sliceStep, hNF, Bool.false_eq_true, if_false]

theorem cursorFetch_shape_newest (b5 b1000 : List Msg) (bid : String)
    (p : Int) (bi : Nat) (hfind : findIndexId bid b5 = some bi)
    (hNF : isNewestFirst b5 = true) (hp : 0 < p) (hbi : bi < b5.length)
    (hpre : b5 <+: b1000) :
    ∃ k : Nat, k ≤ p.toNat ∧
      (cursorFetch b5 b1000 bid p = (b5.drop (bi + 1)).take k ∨
       cursorFetch b5 b1000 bid p = (b1000.drop (bi + 1)).take k) := by
  have hlen : b5.length ≤ b1000.length := hpre.length_le
  have hfind1000 : findIndexId bid b1000 = some bi := by
    obtain ⟨t, ht⟩ := hpre
    rw [← ht]
    exact findIndexId_append_left bid b5 t bi hfind
  have hcf : cursorFetch b5 b1000 bid p =
      (if ((sliceStep b5 bi p).1.length : Int) < p ∧
          (sliceStep b5 bi p).2 = (b5.length : Int) then
        retryStep b1000 bid p (sliceStep b5 bi p).1
      else (sliceStep b5 bi p).1) := by
    simp only [cursorFetch, hfind]
  have hretry : ∀ M : List Msg,
      retryStep b1000 bid p M =
        (if (bi : Int) < (b1000.length : Int) - 1 then
          jsSlice b1000 ((bi : Int) + 1) (min ((bi : Int) + 1 + p) (b1000.length : Int))
        else M) := by
    intro M
    simp only [retryStep, hfind1000]
  have hr1000 : ∀ M : List Msg, ∃ k : Nat, k ≤ p.toNat ∧
      (retryStep b1000 bid p M = (b1000.drop (bi + 1)).take k ∨
        retryStep b1000 bid p M = M) := by
    intro M
    rw [hretry M]
    by_cases hb : (bi : Int) < (b1000.length : Int) - 1
    · rw [if_pos hb]
      have hslice := jsSlice_eq b1000 ((bi : Int) + 1)
        (min ((bi : Int) + 1 + p) (b1000.length : Int))
        (by omega) (by omega) (by omega) (min_le_right _ _)
      rw [hslice]
      have hsnat : ((bi : Int) + 1).toNat = bi + 1 := by omega
      rw [hsnat]
      refine ⟨(min ((bi : Int) + 1 + p) (b1000.length : Int)).toNat - (bi + 1),
        ?_, Or.inl rfl⟩
      have hmle : min ((bi : Int) + 1 + p) (b1000.length : Int) ≤ (bi : Int) + 1 + p :=
        min_le_left _ _
      omega
    · rw [if_neg hb]
      exact ⟨0, by omega, Or.inr rfl⟩
  rw [hcf, sliceStep_newest_eq b5 bi p hNF]
  by_cases hg : (bi : Int) + 1 < min ((bi : Int) + 1 + p) (b5.length : Int) ∧
      (bi : Int) + 1 < (b5.length : Int)
  · rw [if_pos hg]
    have hslice := jsSlice_eq b5 ((bi : Int) + 1)
      (min ((bi : Int) + 1 + p) (b5.length : Int))
      (by omega) (by omega) (by omega) (min_le_right _ _)
    rw [hslice]
    have hsnat : ((bi : Int) + 1).toNat = bi + 1 := by omega
    rw [hsnat]
    have hk1 : (min ((bi : Int) + 1 + p) (b5.length : Int)).toNat - (bi + 1)
        ≤ p.toNat := by
      have hmle : min ((bi : Int) + 1 + p) (b5.length : Int) ≤ (bi : Int) + 1 + p :=
        min_le_left _ _
      omega
    by_cases hc : ((((b5.drop (bi + 1)).take
        ((min ((bi : Int) + 1 + p) (b5.length : Int)).toNat - (bi + 1))).length : Int) < p ∧
        min ((bi : Int) + 1 + p) (b5.length : Int) = (b5.length : Int))
    · rw [if_pos hc]
      obtain ⟨k, hk, hor⟩ := hr1000 ((b5.drop (bi + 1)).take
        ((min ((bi : Int) + 1 + p) (b5.length : Int)).toNat - (bi + 1)))
      rcases hor with h | h
      · exact ⟨k, hk, Or.inr h⟩
      · exact ⟨(min ((bi : Int) + 1 + p) (b5.length : Int)).toNat - (bi + 1),
          hk1, Or.inl h⟩
    · rw [if_neg hc]
      exact ⟨(min ((bi : Int) + 1 + p) (b5.length : Int)).toNat - (bi + 1),
        hk1, Or.inl rfl⟩
  · rw [if_neg hg]
    by_cases hc : ((([] : List Msg).length : Int) < p ∧
        min ((bi : Int) + 1 + p) (b5.length : Int) = (b5.length : Int))
    · rw [if_pos hc]
      obtain ⟨k, hk, hor⟩ := hr1000 []
      rcases hor with h | h
      · exact ⟨k, hk, Or.inr h⟩
      · exact ⟨0, by omega, Or.inl (by rw [h]; simp)⟩
    · rw [if_neg hc]
      exact ⟨0, by omega, Or.inl (by simp)⟩

theorem cursorFetch_shape_oldest (b5 b1000 : List Msg) (bid : String)
    (p : Int) (bi : Nat) (hfind : findIndexId bid b5 = some bi)
    (hNF : isNewestFirst b5 = false) (hbi : bi < b5.length) :
    ∃ s k : Nat, s + k ≤ bi ∧ k ≤ p.toNat ∧
      cursorFetch b5 b1000 bid p = (b5.drop s).take k := by
  have hcf : cursorFetch b5 b1000 bid p =
      (if ((sliceStep b5 bi p).1.length : Int) < p ∧
          (sliceStep b5 bi p).2 = (b5.length : Int) then
        retryStep b1000 bid p (sliceStep b5 bi p).1
      else (sliceStep b5 bi p).1) := by
    simp only [cursorFetch, hfind]
  rw [hcf, sliceStep_oldest_eq b5 bi p hNF]
  have hne : ∀ A : Prop, ¬(A ∧ (bi : Int) = (b5.length : Int)) := by
    intro A h
    omega
  by_cases hg : max 0 ((bi : Int) - p) < (bi : Int) ∧
      max 0 ((bi : Int) - p) < (b5.length : Int)
  · rw [if_pos hg, if_neg (hne _)]
    have hslice := jsSlice_eq b5 (max 0 ((bi : Int) - p)) (bi : Int)
      (le_max_left _ _) (by omega) (by omega) (by omega)
    rw [hslice]
    refine ⟨(max 0 ((bi : Int) - p)).toNat,
      (bi : Int).toNat - (max 0 ((bi : Int) - p)).toNat, ?_, ?_, ?_⟩
    · have := le_max_left (0 : Int) ((bi : Int) - p)
      omega
    · have := le_max_right (0 : Int) ((bi : Int) - p)
      omega
    · rfl
  · rw [if_neg hg, if_neg (hne _)]
    exact ⟨0, 0, by omega, by omega, by simp⟩

/-- Counterexample to claim C1: over an oldest-first snapshot (timestamps
1, 2, 3) with the newest message as cursor and page size 2, the pager
returns the two older messages in descending timestamp order — the
unconditional final reverse flips an already-oldest-first slice — refuting
the claimed ascending order for every batch orientation. -/
theorem fetchPage_order_counterexample :
    fetchPage (fun _ => [⟨"a", "", 1, false, ""⟩, ⟨"b", "", 2, false, ""⟩,
        ⟨"c", "", 3, false, ""⟩]) (some "c") 2
      = [⟨"b", "", 2, false, ""⟩, ⟨"a", "", 1, false, ""⟩] ∧
    ¬ChronoAsc (fetchPage (fun _ => [⟨"a", "", 1, false, ""⟩,
        ⟨"b", "", 2, false, ""⟩, ⟨"c", "", 3, false, ""⟩]) (some "c") 2) := by
  have h1 : fetchPage (fun _ => [⟨"a", "", 1, false, ""⟩,
      ⟨"b", "", 2, false, ""⟩, ⟨"c", "", 3, false, ""⟩]) (some "c") 2
      = [⟨"b", "", 2, false, ""⟩, ⟨"a", "", 1, false, ""⟩] := by decide
  refine ⟨h1, ?_⟩
  rw [h1]
  intro h
  simp only [ChronoAsc, List.pairwise_cons] at h
  exact absurd (h.1 ⟨"a", "", 1, false, ""⟩ (by simp)) (by decide)

/-- Claim C1 (amended): for every valid page size p in [1,100] and a cursor
located in the overfetched batch, the pager returns at most p messages,
each strictly older than the cursor message, and the returned sequence is
in ascending timestamp order when the batch is newest-first; when the batch
is oldest-first the unconditional final reverse instead yields descending
(newest-first) order.  The snapshot hypotheses say the two overfetches are
strictly sorted in a consistent orientation, the larger one extending the
smaller. -/
theorem fetchPage_cursor_page (fetch : Nat → List Msg) (bid : String)
    (p : Int) (bi : Nat) (c : Msg)
    (hp1 : 1 ≤ p) (hp2 : p ≤ 100)
    (hfind : findIndexId bid (fetch 500) = some bi)
    (hc : (fetch 500)[bi]? = some c)
    (horient : (ChronoDesc (fetch 500) ∧ ChronoDesc (fetch 1000) ∧
        fetch 500 <+: fetch 1000) ∨ ChronoAsc (fetch 500)) :
    (fetchPage fetch (some bid) p).length ≤ p.toNat ∧
    (∀ m ∈ fetchPage fetch (some bid) p, m.timestamp < c.timestamp) ∧
    (isNewestFirst (fetch 500) = true →
      ChronoAsc (fetchPage fetch (some bid) p)) ∧
    (isNewestFirst (fetch 500) = false →
      ChronoDesc (fetchPage fetch (some bid) p)) := by
  have hbi : bi < (fetch 500).length := (List.getElem?_eq_some_iff.mp hc).1
  have hfp : fetchPage fetch (some bid) p =
      (cursorFetch (fetch 500) (fetch 1000) bid p).reverse := rfl
  cases hNF : isNewestFirst (fetch 500) with
  | true =>
      rcases horient with ⟨hd5, hd1000, hpre⟩ | hasc
      · obtain ⟨k, hk, hor⟩ := cursorFetch_shape_newest (fetch 500)
          (fetch 1000) bid p bi hfind hNF (by omega) hbi hpre
        have hc1000 : (fetch 1000)[bi]? = some c :=
          isPrefix_getElem? _ _ hpre bi c hc
        rw [hfp]
        rcases hor with hsh | hsh
        · refine ⟨?_, ?_, ?_, ?_⟩
          · rw [hsh]
            simp only [List.length_reverse]
            exact le_trans (List.length_take_le _ _) hk
          · intro m hm
            rw [hsh, List.mem_reverse] at hm
            exact mem_slice_after_lt _ bi k c hd5 hc m hm
          · intro _
            rw [hsh]
            simp only [ChronoAsc]
            rw [List.pairwise_reverse]
            exact List.Pairwise.sublist (slice_sublist _ _ _) hd5
          · intro hfalse
            simp at hfalse
        · refine ⟨?_, ?_, ?_, ?_⟩
          · rw [hsh]
            simp only [List.length_reverse]
            exact le_trans (List.length_take_le _ _) hk
          · intro m hm
            rw [hsh, List.mem_reverse] at hm
            exact mem_slice_after_lt _ bi k c hd1000 hc1000 m hm
          · intro _
            rw [hsh]
            simp only [ChronoAsc]
            rw [List.pairwise_reverse]
            exact List.Pairwise.sublist (slice_sublist _ _ _) hd1000
          · intro hfalse
            simp at hfalse
      · rw [chronoAsc_not_newest _ hasc] at hNF
        simp at hNF
  | false =>
      obtain ⟨s, k, hsk, hk, hsh⟩ := cursorFetch_shape_oldest (fetch 500)
        (fetch 1000) bid p bi hfind hNF hbi
      rw [hfp]
      refine ⟨?_, ?_, ?_, ?_⟩
      · rw [hsh]
        simp only [List.length_reverse]
        exact le_trans (List.length_take_le _ _) hk
      · intro m hm
        rw [hsh, List.mem_reverse] at hm
        rcases horient with ⟨hd5, _, _⟩ | hasc
        · have hlen1 := chronoDesc_not_newest_len _ hd5 hNF
          have hk0 : k = 0 := by omega
          rw [hk0] at hm
          simp at hm
        · exact mem_slice_before_lt _ bi s k c hasc hc hsk m hm
      · intro htrue
        simp at htrue
      · intro _
        rw [hsh]
        rcases horient with ⟨hd5, _, _⟩ | hasc
        · have hlen1 := chronoDesc_not_newest_len _ hd5 hNF
          have hk0 : k = 0 := by omega
          rw [hk0]
          simp [ChronoDesc]
        · simp only [ChronoDesc]
          rw [List.pairwise_reverse]
          exact List.Pairwise.sublist (slice_sublist _ _ _) hasc

/-- Witness for C1 (amended): a two-message newest-first snapshot with the
newer message as cursor and page size 1. -/
theorem fetchPage_cursor_page_witness :
    (fetchPage (fun _ => [⟨"m2", "", 2, false, ""⟩, ⟨"m1", "", 1, false, ""⟩])
        (some "m2") 1).length ≤ (1 : Int).toNat ∧
    (∀ m ∈ fetchPage (fun _ => [⟨"m2", "", 2, false, ""⟩,
        ⟨"m1", "", 1, false, ""⟩]) (some "m2") 1,
      m.timestamp < (⟨"m2", "", 2, false, ""⟩ : Msg).timestamp) ∧
    (isNewestFirst ((fun _ : Nat => [⟨"m2", "", 2, false, ""⟩,
        ⟨"m1", "", 1, false, ""⟩]) 500) = true →
      ChronoAsc (fetchPage (fun _ => [⟨"m2", "", 2, false, ""⟩,
        ⟨"m1", "", 1, false, ""⟩]) (some "m2") 1)) ∧
    (isNewestFirst ((fun _ : Nat => [⟨"m2", "", 2, false, ""⟩,
        ⟨"m1", "", 1, false, ""⟩]) 500) = false →
      ChronoDesc (fetchPage (fun _ => [⟨"m2", "", 2, false, ""⟩,
        ⟨"m1", "", 1, false, ""⟩]) (some "m2") 1)) :=
  fetchPage_cursor_page (fun _ => [⟨"m2", "", 2, false, ""⟩,
      ⟨"m1", "", 1, false, ""⟩]) "m2" 1 0 ⟨"m2", "", 2, false, ""⟩
    (by decide) (by decide) (by decide) (by decide)
    (Or.inl ⟨by simp [ChronoDesc], by simp [ChronoDesc],
      List.prefix_refl _⟩)

theorem isNewestFirst_len_le_one (l : List Msg) (h : l.length ≤ 1) :
    isNewestFirst l = false := by
  cases l with
  | nil => rfl
  | cons a t =>
      cases t with
      | nil => rfl
      | cons b r => simp only [List.length_cons] at h; omega

theorem findIndexId_isSome_of_mem (l : List Msg) (m : Msg) (hm : m ∈ l) :
    ∃ i, findIndexId m.id l = some i := by
  induction l with
  | nil => cases hm
  | cons a t ih =>
      by_cases ha : a.id = m.id
      · exact ⟨0, by simp [findIndexId, ha]⟩
      · rcases List.mem_cons.mp hm with heq | hm2
        · exact absurd (by rw [heq]) ha
        · obtain ⟨j, hj⟩ := ih hm2
          exact ⟨j + 1, by simp [findIndexId, ha, hj]⟩

theorem cursorFetch_at_zero (b5 b1000 : List Msg) (bid : String) (p : Int)
    (hfind : findIndexId bid b5 = some 0)
    (hNF : isNewestFirst b5 = false) (hp : 1 ≤ p) (hlen : 1 ≤ b5.length) :
    cursorFetch b5 b1000 bid p = [] := by
  have hslice : sliceStep b5 0 p = ([], 0) := by
    rw [sliceStep_oldest_eq b5 0 p hNF]
    have hmax : max 0 (((0 : Nat) : Int) - p) = 0 := max_eq_left (by omega)
    rw [hmax]
    rw [if_neg (by intro hcon; obtain ⟨c1, c2⟩ := hcon; omega)]
    simp
  simp only [cursorFetch, hfind, hslice]
  rw [if_neg (by intro hcon; obtain ⟨c1, c2⟩ := hcon; omega)]

theorem cursorFetch_at_last (b5 b1000 : List Msg) (bid : String) (p : Int)
    (bi : Nat) (hfind5 : findIndexId bid b5 = some bi)
    (hfind1000 : findIndexId bid b1000 = some bi)
    (hNF : isNewestFirst b5 = true) (hp : 1 ≤ p)
    (hbi : bi = b5.length - 1) (h2 : 2 ≤ b5.length)
    (hlen1000 : b1000.length = b5.length) :
    cursorFetch b5 b1000 bid p = [] := by
  have hslice : sliceStep b5 bi p = ([], (b5.length : Int)) := by
    rw [sliceStep_newest_eq b5 bi p hNF]
    have hmin : min ((bi : Int) + 1 + p) (b5.length : Int) = (b5.length : Int) :=
      min_eq_right (by omega)
    rw [hmin, if_neg (by intro hcon; obtain ⟨c1, c2⟩ := hcon; omega)]
  have hretry : retryStep b1000 bid p [] = [] := by
    simp only [retryStep, hfind1000]
    rw [if_neg (by omega)]
  simp only [cursorFetch, hfind5, hslice]
  rw [if_pos ⟨by simp only [List.length_nil, Nat.cast_zero]; omega, trivial⟩]
  exact hretry

/-- Claim C6: a chat holding exactly p messages (for a valid page size p in
[1,100], with distinct message ids, strictly sorted in either orientation):
a cursorless request with page size p returns all p messages (the batch
reversed), and a follow-up request using the oldest message's id as cursor
returns the empty list. -/
theorem fetchPage_exact_page_boundary (h : List Msg) (p : Int)
    (hp1 : 1 ≤ p) (hp2 : p ≤ 100)
    (hlen : (h.length : Int) = p)
    (hsort : ChronoDesc h ∨ ChronoAsc h)
    (hids : (h.map Msg.id).Nodup)
    (old : Msg) (hmem : old ∈ h)
    (holdest : ∀ m ∈ h, m ≠ old → old.timestamp < m.timestamp) :
    fetchPage (fun _ => h) none p = h.reverse ∧
    fetchPage (fun _ => h) (some old.id) p = [] := by
  refine ⟨rfl, ?_⟩
  obtain ⟨bi, hfind⟩ := findIndexId_isSome_of_mem h old hmem
  obtain ⟨mfound, hmf, hmfid⟩ := findIndexId_some_getElem old.id h bi hfind
  have hmem2 : mfound ∈ h := List.getElem?_mem hmf
  have heq : mfound = old := List.inj_on_of_nodup_map hids hmem2 hmem hmfid
  rw [heq] at hmf
  have hbi : bi < h.length := (List.getElem?_eq_some_iff.mp hmf).1
  have hfp : fetchPage (fun _ => h) (some old.id) p =
      (cursorFetch h h old.id p).reverse := rfl
  rcases hsort with hd | hasc
  · by_cases h2 : 2 ≤ h.length
    · have hNF := chronoDesc_two_newest h hd h2
      have hbieq : bi = h.length - 1 := by
        by_contra hne2
        rcases hl : h[h.length - 1]? with _ | lst
        · rw [List.getElem?_eq_getElem (by omega)] at hl
          simp at hl
        · have hrel := pairwise_getElem?_rel h hd bi (h.length - 1)
            (by omega) old lst hmf hl
          have hlmem := List.getElem?_mem hl
          by_cases hfe : lst = old
          · rw [hfe] at hrel; omega
          · have := holdest lst hlmem hfe; omega
      rw [hfp, cursorFetch_at_last h h old.id p bi hfind hfind hNF hp1
        hbieq h2 rfl]
      rfl
    · have hNF := isNewestFirst_len_le_one h (by omega)
      have hbi0 : bi = 0 := by omega
      rw [hbi0] at hfind
      rw [hfp, cursorFetch_at_zero h h old.id p hfind hNF hp1 (by omega)]
      rfl
  · have hNF := chronoAsc_not_newest h hasc
    have hbi0 : bi = 0 := by
      by_contra hne2
      rcases h0 : h[0]? with _ | fst
      · rw [List.getElem?_eq_getElem (by omega)] at h0
        simp at h0
      · have hrel := pairwise_getElem?_rel h hasc 0 bi (by omega) fst old
          h0 hmf
        have hfmem := List.getElem?_mem h0
        by_cases hfe : fst = old
        · rw [hfe] at hrel; omega
        · have := holdest fst hfmem hfe; omega
    rw [hbi0] at hfind
    rw [hfp, cursorFetch_at_zero h h old.id p hfind hNF hp1 (by omega)]
    rfl

/-- Witness for C6: a two-message newest-first chat with page size 2; the
cursorless page returns both messages and the page before the oldest
message is empty. -/
theorem fetchPage_exact_page_boundary_witness :
    fetchPage (fun _ => [⟨"m2", "", 2, false, ""⟩, ⟨"m1", "", 1, false, ""⟩])
        none 2
      = [⟨"m2", "", 2, false, ""⟩, ⟨"m1", "", 1, false, ""⟩].reverse ∧
    fetchPage (fun _ => [⟨"m2", "", 2, false, ""⟩, ⟨"m1", "", 1, false, ""⟩])
        (some (Msg.id ⟨"m1", "", 1, false, ""⟩)) 2
      = [] :=
  fetchPage_exact_page_boundary
    [⟨"m2", "", 2, false, ""⟩, ⟨"m1", "", 1, false, ""⟩] 2
    (by decide) (by decide) (by decide)
    (Or.inl (by simp [ChronoDesc]))
    (by decide) ⟨"m1", "", 1, false, ""⟩ (by decide) (by decide)
